import Mathlib

/-!
# Verification of the casic session/seat ledger engine

Shallow embedding of the chip-operation log, chip-purchase ledger, credit
accounting, session lifecycle, dealer/waiter assignment tracking, rake
attribution and waiter-hours computation of the casic backend
(`backend/app/api/sessions.py`, `backend/app/api/admin.py`,
`backend/app/api/report.py`), together with theorems checking the
natural-language specification against that code.

Timestamps are modelled as natural numbers (seconds) except for the
waiter-hours computation which uses rationals (the Python code divides
`total_seconds` by 3600.0).  Database rows become list elements; the
`chip_ops.id` primary key is modelled by an explicit `nextOpId` counter,
matching the autoincrement column.
-/

namespace Casic

/-- Payment classification of a chip purchase (`chip_purchases.payment_type`,
a string constrained to "cash" or "credit"). -/
inductive PaymentType where
  | cash : PaymentType
  | credit : PaymentType
deriving DecidableEq, Repr

/-- A row of the append-only `chip_ops` table: a signed chip-quantity change
at a seat.  `createdAt` is the insertion timestamp (used by rake
attribution). -/
structure ChipOp where
  id : Nat
  seatNo : Nat
  amount : Int
  createdAt : Nat
deriving DecidableEq, Repr

/-- A row of `chip_purchases`: a classified money movement linked 1:1 to a
chip operation via `chip_op_id` (unique constraint
`uq_chip_purchases_chip_op_id`). -/
structure ChipPurchase where
  seatNo : Nat
  amount : Int
  chipOpId : Nat
  paymentType : PaymentType
deriving DecidableEq, Repr

/-- A row of `seats`: the running chip balance of one numbered seat of a
session.  `(session_id, seat_no)` is unique (`uq_seat_session_seatno`). -/
structure Seat where
  seatNo : Nat
  total : Int
deriving DecidableEq, Repr

/-- A row of `session_dealer_assignments`: a dealer shift interval.
`endedAt = none` means the assignment is still active. -/
structure DealerAssignment where
  id : Nat
  dealerId : Nat
  startedAt : Nat
  endedAt : Option Nat
  rake : Option Int
deriving DecidableEq, Repr

/-- The `sessions.status` column, constrained to "open" / "closed". -/
inductive SessionStatus where
  | isOpen : SessionStatus
  | isClosed : SessionStatus
deriving DecidableEq, Repr

/-- The persistent state of one session: its seats, chip-operation log,
purchase ledger and dealer assignments.  `nextOpId` models the
autoincrement primary key of `chip_ops`. -/
structure SessionState where
  status : SessionStatus
  seats : List Seat
  ops : List ChipOp
  purchases : List ChipPurchase
  assignments : List DealerAssignment
  chipsInPlay : Int
  nextOpId : Nat
  closedAt : Option Nat
deriving DecidableEq, Repr

/-- Errors surfaced by the chip endpoints.  `seatNotFound` and
`noHistory` are the HTTP 404/400 responses of `sessions.py`.
`attributeError` is the unhandled `AttributeError` (HTTP 500) raised at
sessions.py:1004: `payload.credit_to_deduct` is evaluated for every
negative-amount request, but `ChipCreateIn` (schemas.py:184-187)
declares no `credit_to_deduct` field, so every cash-out dies there
before any mutation; the handler's InvalidCashoutSplit validations
(sessions.py:1007-1028) and split records are dead code. -/
inductive ChipErr where
  | seatNotFound : ChipErr
  | attributeError : ChipErr
  | noHistory : ChipErr
deriving DecidableEq, Repr

/-- `_get_seat_credit`: sum of the amounts of all credit-classified
purchases of the seat (payoffs are negative and net out). -/
def seatCredit (purchases : List ChipPurchase) (seatNo : Nat) : Int :=
  ((purchases.filter (fun p => p.seatNo == seatNo && p.paymentType == PaymentType.credit)).map
    (fun p => p.amount)).sum

/-- The ORM lookup `Seat.query.filter(session_id, seat_no).first()`. -/
def findSeat (seats : List Seat) (seatNo : Nat) : Option Seat :=
  seats.find? (fun s => s.seatNo == seatNo)

/-- Setting `seat.total` on the fetched row.  Because `(session_id,
seat_no)` is unique, mapping over the list updates exactly the row the
code mutated. -/
def updateSeatTotal (seats : List Seat) (seatNo : Nat) (newTotal : Int) : List Seat :=
  seats.map (fun s => if s.seatNo == seatNo then { s with total := newTotal } else s)

/-- The `total_chips_bought` aggregate of `add_chips`: sum of the amounts
of every purchase of the session (positive and negative alike). -/
def totalChipsBought (purchases : List ChipPurchase) : Int :=
  (purchases.map (fun p => p.amount)).sum

/-- The trailing `chips_in_play` auto-increment of `add_chips`: when the
delta is positive and the purchase total exceeds the current
`chips_in_play`, bump it. -/
def updateChipsInPlay (st : SessionState) (delta : Int) : SessionState :=
  if delta > 0 then
    let t := totalChipsBought st.purchases
    if t > st.chipsInPlay then { st with chipsInPlay := t } else st
  else st

/-- The unconditional branch of `add_chips` ("normal credit purchase or
cashout without credit deduction" / "no credit, normal cash purchase"):
bump the seat total by `delta`, append one chip operation, and append a
purchase record only when `delta > 0`. -/
def addChipsNormal (st : SessionState) (seatNo : Nat) (seatTotal delta : Int)
    (paymentType : PaymentType) (now : Nat) : SessionState :=
  { st with
    seats := updateSeatTotal st.seats seatNo (seatTotal + delta)
    ops := st.ops ++ [⟨st.nextOpId, seatNo, delta, now⟩]
    purchases := st.purchases ++
      (if delta > 0 then [⟨seatNo, delta, st.nextOpId, paymentType⟩] else [])
    nextOpId := st.nextOpId + 1 }

/-- `add_chips` (`POST /api/sessions/{id}/chips`, sessions.py:903-1136).

The handler never inspects `session.status`.  The live branches, in
source order: positive cash buy-in with outstanding credit (payoff
split), positive cash buy-in without credit, and the plain path for a
zero amount or a credit buy-in.  Every negative-amount request crashes:
the `else` branch first evaluates `payload.credit_to_deduct`
(sessions.py:1004) whose field does not exist on `ChipCreateIn`, raising
AttributeError (HTTP 500) before any `db.add`, so nothing is persisted —
the cash-out validation and split-record code below that line is
unreachable.  Each `db.add` of a `ChipOp` is an append with the next
autoincrement id; the final `chips_in_play` bump runs for any positive
delta.  An aborted request (HTTP 4xx/500 before commit) persists
nothing, which the `Except` error models. -/
def addChips (st : SessionState) (seatNo : Nat) (amount : Int)
    (paymentType : PaymentType) (now : Nat) :
    Except ChipErr SessionState :=
  match findSeat st.seats seatNo with
  | none => .error .seatNotFound
  | some seat =>
    let seatTotal := seat.total
    let delta := amount
    if delta > 0 && paymentType == PaymentType.cash then
      let currentCredit := seatCredit st.purchases seatNo
      if currentCredit > 0 then
        -- payoff-before-purchase split
        let creditPayoff := min delta currentCredit
        let chipsToAdd := delta - creditPayoff
        let st1 :=
          if creditPayoff > 0 then
            { st with
              ops := st.ops ++ [⟨st.nextOpId, seatNo, 0, now⟩]
              purchases := st.purchases ++
                [⟨seatNo, -creditPayoff, st.nextOpId, PaymentType.credit⟩]
              nextOpId := st.nextOpId + 1 }
          else st
        let st2 :=
          if chipsToAdd > 0 then
            { st1 with
              ops := st1.ops ++ [⟨st1.nextOpId, seatNo, chipsToAdd, now⟩]
              purchases := st1.purchases ++
                [⟨seatNo, chipsToAdd, st1.nextOpId, PaymentType.cash⟩]
              nextOpId := st1.nextOpId + 1 }
          else st1
        .ok (updateChipsInPlay
          { st2 with seats := updateSeatTotal st2.seats seatNo (seatTotal + chipsToAdd) }
          delta)
      else
        .ok (updateChipsInPlay (addChipsNormal st seatNo seatTotal delta paymentType now) delta)
    else
      -- sessions.py:1004: `if delta < 0 and payload.credit_to_deduct and ...`
      -- short-circuits only when delta is not negative; a negative delta
      -- evaluates the missing `credit_to_deduct` attribute and raises.
      if delta < 0 then .error .attributeError
      else
        .ok (updateChipsInPlay (addChipsNormal st seatNo seatTotal delta paymentType now) delta)

/-- The `ChipOp` row returned by `order_by(ChipOp.id.desc()).first()` over
the seat's operations.  Ids are assigned in increasing order, so the
row with the largest id is the last matching element of the log. -/
def lastOp (ops : List ChipOp) (seatNo : Nat) : Option ChipOp :=
  (ops.filter (fun op => op.seatNo == seatNo)).getLast?

/-- `db.delete` of the single purchase whose `chip_op_id` matches
(`uq_chip_purchases_chip_op_id` makes it unique, `.first()` fetches it). -/
def deletePurchaseByOpId (purchases : List ChipPurchase) (opId : Nat) : List ChipPurchase :=
  match purchases with
  | [] => []
  | p :: rest =>
    if p.chipOpId == opId then rest else p :: deletePurchaseByOpId rest opId

/-- `undo_last` (`POST /api/sessions/{id}/chips/undo`, sessions.py:1144-1181):
subtract the most recent operation's amount from the seat total, delete
the purchase linked to it (if any), and delete the operation itself.
The handler never inspects `session.status`. -/
def undoLast (st : SessionState) (seatNo : Nat) : Except ChipErr SessionState :=
  match findSeat st.seats seatNo with
  | none => .error .seatNotFound
  | some seat =>
    match lastOp st.ops seatNo with
    | none => .error .noHistory
    | some last =>
      .ok { st with
        seats := updateSeatTotal st.seats seatNo (seat.total - last.amount)
        purchases := deletePurchaseByOpId st.purchases last.id
        ops := st.ops.erase last }

/-- `clear_seat` (`POST /api/sessions/{id}/seats/{no}/clear`,
sessions.py:578-623): delete every chip purchase of the seat and reset
its total to 0; the seat's chip operations are kept. -/
def clearSeat (st : SessionState) (seatNo : Nat) : Except ChipErr SessionState :=
  match findSeat st.seats seatNo with
  | none => .error .seatNotFound
  | some _ =>
    .ok { st with
      purchases := st.purchases.filter (fun p => p.seatNo != seatNo)
      seats := updateSeatTotal st.seats seatNo 0 }

/-- A chip-interface command: the two operations claim C1 quantifies over. -/
inductive Cmd where
  | add : Nat → Int → PaymentType → Nat → Cmd
  | undo : Nat → Cmd
deriving DecidableEq, Repr

/-- Run one command; a failed request (including the cash-out
AttributeError) leaves the stored state unchanged — the transaction
never commits. -/
def applyCmd (st : SessionState) (c : Cmd) : SessionState :=
  match c with
  | .add seatNo amount paymentType now =>
    match addChips st seatNo amount paymentType now with
    | .ok st' => st'
    | .error _ => st
  | .undo seatNo =>
    match undoLast st seatNo with
    | .ok st' => st'
    | .error _ => st

/-- Keep the old state when a call fails (rolled-back transaction). -/
def runOr (st : SessionState) (r : Except ChipErr SessionState) : SessionState :=
  match r with
  | .ok st' => st'
  | .error _ => st

/-- Run a sequence of chip-interface commands. -/
def applyCmds (st : SessionState) (cmds : List Cmd) : SessionState :=
  cmds.foldl applyCmd st

/-- The state `create_session` leaves a fresh session in: `n` empty seats
numbered 1..n, no operations, no purchases, one active dealer
assignment. -/
def initState (n : Nat) (dealerId : Nat) (chipsInPlay : Int) (now : Nat) : SessionState :=
  { status := .isOpen
    seats := (List.range n).map (fun i => ⟨i + 1, 0⟩)
    ops := []
    purchases := []
    assignments := [⟨0, dealerId, now, none, none⟩]
    chipsInPlay := chipsInPlay
    nextOpId := 0
    closedAt := none }

/-- The seat loop of `close_session` (sessions.py:1322-1330), fused with
`_cashout_seat_chips`: for every fetched seat row with a positive total,
append a chip operation and a cash-classified purchase of `-total` and
zero the row; other rows are untouched. -/
def closeSeatsGo (seats : List Seat) (ops : List ChipOp)
    (purchases : List ChipPurchase) (nextOpId : Nat) (now : Nat) :
    List Seat × List ChipOp × List ChipPurchase × Nat :=
  match seats with
  | [] => ([], ops, purchases, nextOpId)
  | seat :: rest =>
    if seat.total > 0 then
      let ops1 := ops ++ [⟨nextOpId, seat.seatNo, -seat.total, now⟩]
      let purchases1 := purchases ++
        [⟨seat.seatNo, -seat.total, nextOpId, PaymentType.cash⟩]
      let r := closeSeatsGo rest ops1 purchases1 (nextOpId + 1) now
      ({ seat with total := 0 } :: r.1, r.2)
    else
      let r := closeSeatsGo rest ops purchases nextOpId now
      (seat :: r.1, r.2)

/-- `_finalize_session` (sessions.py:1265-1291): set status to closed,
stamp `closed_at`, end every active dealer assignment and record the
caller-supplied rake for the assignment ids present in the payload. -/
def finalizeSession (st : SessionState) (dealerRakes : List (Nat × Int)) (now : Nat) :
    SessionState :=
  { st with
    status := .isClosed
    closedAt := some now
    assignments := st.assignments.map (fun a =>
      if a.endedAt == none then
        { a with
          endedAt := some now
          rake := match dealerRakes.lookup a.id with
                  | some r => some r
                  | none => a.rake }
      else a) }

/-- `close_session` (`POST /api/sessions/{id}/close`, sessions.py:1299-1348):
force-cash-out every seat with a positive total, then finalize.  The
handler performs no validation beyond existence/access, so the operation
always succeeds in the ledger model. -/
def closeSession (st : SessionState) (dealerRakes : List (Nat × Int)) (now : Nat) :
    SessionState :=
  let r := closeSeatsGo st.seats st.ops st.purchases st.nextOpId now
  finalizeSession
    { st with seats := r.1, ops := r.2.1, purchases := r.2.2.1, nextOpId := r.2.2.2 }
    dealerRakes now

/-!
## Rake attribution (`list_closed_sessions`, admin.py:694-723)

For a closed session the code computes, for each dealer assignment, the
sum of the absolute amounts of the "loss" chip operations (negative
amount, no linked purchase) whose timestamp falls in the assignment's
window.  An assignment with `ended_at` set uses the half-open window
`[started_at, ended_at)`; an assignment without `ended_at` uses the
closed window `[started_at, closed_at]`.
-/

/-- The per-op attribution test of the loop: skip ops linked to a
purchase, count negative ops inside the assignment's window. -/
def lossWindow (closedAt : Nat) (a : DealerAssignment) (t : Nat) : Bool :=
  match a.endedAt with
  | some e => a.startedAt ≤ t && t < e
  | none => a.startedAt ≤ t && t ≤ closedAt

/-- The `dealer_rake` accumulation loop of `list_closed_sessions`:
`purchasedOpIds` is the set `chip_op_ids_with_purchases`. -/
def dealerRakeComputed (ops : List ChipOp) (purchasedOpIds : List Nat)
    (closedAt : Nat) (a : DealerAssignment) : Int :=
  ops.foldl (fun acc op =>
    if purchasedOpIds.contains op.id then acc
    else if op.amount < 0 then
      if lossWindow closedAt a op.createdAt then acc + |op.amount| else acc
    else acc) 0

/-- Modelled from the spec: an assignment covers timestamp `t` when `t`
lies in `[started_at, min(ended_at, session_end)]`. -/
def specCovers (closedAt : Nat) (a : DealerAssignment) (t : Nat) : Bool :=
  a.startedAt ≤ t && t ≤ min (a.endedAt.getD closedAt) closedAt

/-- Modelled from the spec: among all assignments covering `t`, the one
with the latest `started_at` wins the loss event. -/
def specWins (assignments : List DealerAssignment) (closedAt : Nat)
    (a : DealerAssignment) (t : Nat) : Bool :=
  specCovers closedAt a t &&
    assignments.all (fun b => !(specCovers closedAt b t) || b.startedAt ≤ a.startedAt)

/-- Modelled from the spec: an assignment's rake is the sum of `|amount|`
over the loss events it wins under the latest-`started_at` rule. -/
def dealerRakeSpec (ops : List ChipOp) (purchasedOpIds : List Nat)
    (assignments : List DealerAssignment) (closedAt : Nat) (a : DealerAssignment) : Int :=
  ((ops.filter (fun op =>
      !purchasedOpIds.contains op.id && op.amount < 0 &&
        specWins assignments closedAt a op.createdAt)).map
    (fun op => |op.amount|)).sum

/-!
## Global session lifecycle (`create_session`, `add_dealer`)

State across tables/sessions, for the dealer-exclusivity and idempotent
creation claims.  Users are reduced to ids: `dealers` holds the ids of
active users with role "dealer".
-/

/-- A row of `sessions` as far as the lifecycle claims need it:
`dealerId` is the `sessions.dealer_id` column (the current primary
dealer). -/
structure GSession where
  id : Nat
  tableId : Nat
  status : SessionStatus
  dealerId : Nat
deriving DecidableEq, Repr

/-- A `session_dealer_assignments` row in the global model. -/
structure GAssignment where
  id : Nat
  sessionId : Nat
  dealerId : Nat
  startedAt : Nat
  endedAt : Option Nat
deriving DecidableEq, Repr

/-- Global store state for the lifecycle endpoints. -/
structure GState where
  dealers : List Nat
  tables : List Nat
  sessions : List GSession
  seats : List (Nat × Nat)
  assignments : List GAssignment
  nextSessionId : Nat
  nextAssignmentId : Nat
deriving DecidableEq, Repr

/-- Errors of the lifecycle endpoints (HTTP 4xx in sessions.py). -/
inductive GErr where
  | tableNotFound : GErr
  | invalidDealer : GErr
  | dealerAlreadyAssigned : GErr
  | dealerAlreadyInSession : GErr
  | sessionNotFound : GErr
  | sessionNotOpen : GErr
deriving DecidableEq, Repr

/-- `create_session` (`POST /api/sessions`, sessions.py:394-499), reduced
to the lifecycle logic: check the table, return any existing open session
for it idempotently, validate the dealer, reject a dealer who is the
current `dealer_id` of another open session (the only exclusivity check
this endpoint performs), then create the session, its initial dealer
assignment and `seatsCount` empty seats.  Returns the id of the
(existing or new) session. -/
def createSession (st : GState) (tableId dealerId seatsCount : Nat) (now : Nat) :
    Except GErr (Nat × GState) :=
  if !st.tables.contains tableId then .error .tableNotFound
  else
    match st.sessions.find? (fun s => s.tableId == tableId && s.status == SessionStatus.isOpen) with
    | some existing => .ok (existing.id, st)
    | none =>
      if !st.dealers.contains dealerId then .error .invalidDealer
      else if st.sessions.any (fun s =>
          s.status == SessionStatus.isOpen && s.dealerId == dealerId) then
        .error .dealerAlreadyAssigned
      else
        let sid := st.nextSessionId
        .ok (sid,
          { st with
            sessions := st.sessions ++ [⟨sid, tableId, .isOpen, dealerId⟩]
            seats := st.seats ++ (List.range seatsCount).map (fun i => (sid, i + 1))
            assignments := st.assignments ++ [⟨st.nextAssignmentId, sid, dealerId, now, none⟩]
            nextSessionId := sid + 1
            nextAssignmentId := st.nextAssignmentId + 1 })

/-- Membership test behind `add_dealer`'s join query: the dealer holds an
active assignment on some other open session. -/
def dealerActiveElsewhere (st : GState) (dealerId sessionId : Nat) : Bool :=
  st.assignments.any (fun a =>
    a.dealerId == dealerId && a.endedAt == none && a.sessionId != sessionId &&
      st.sessions.any (fun s => s.id == a.sessionId && s.status == SessionStatus.isOpen))

/-- `add_dealer` (`POST /api/sessions/{id}/add-dealer`,
sessions.py:1463-1564): session must exist and be open, the dealer must
be a valid active dealer, must not already hold an active assignment on
this session, and must not hold an active assignment on any other open
session; then a new concurrent assignment is appended. -/
def addDealer (st : GState) (sessionId dealerId : Nat) (now : Nat) :
    Except GErr (Nat × GState) :=
  match st.sessions.find? (fun s => s.id == sessionId) with
  | none => .error .sessionNotFound
  | some s =>
    if s.status != SessionStatus.isOpen then .error .sessionNotOpen
    else if !st.dealers.contains dealerId then .error .invalidDealer
    else if st.assignments.any (fun a =>
        a.sessionId == sessionId && a.dealerId == dealerId && a.endedAt == none) then
      .error .dealerAlreadyInSession
    else if dealerActiveElsewhere st dealerId sessionId then
      .error .dealerAlreadyAssigned
    else
      .ok (sessionId,
        { st with
          assignments := st.assignments ++ [⟨st.nextAssignmentId, sessionId, dealerId, now, none⟩]
          nextAssignmentId := st.nextAssignmentId + 1 })

/-- Number of active (not yet ended) dealer assignments a dealer holds
across all open sessions. -/
def countActiveAssignments (st : GState) (dealerId : Nat) : Nat :=
  (st.assignments.filter (fun a =>
    a.dealerId == dealerId && a.endedAt == none &&
      st.sessions.any (fun s => s.id == a.sessionId && s.status == SessionStatus.isOpen))).length

/-- Run a lifecycle call, keeping the old state when it fails. -/
def gRun (st : GState) (r : GState → Except GErr (Nat × GState)) : GState :=
  match r st with
  | .ok p => p.2
  | .error _ => st

/-!
## Waiter working hours (`_calculate_waiter_hours`, report.py:499-535)

Timestamps are rationals (seconds); the function returns hours.
-/

/-- A `sessions` row as the waiter-hours computation sees it. -/
structure WSession where
  waiterId : Option Nat
  createdAt : ℚ
  closedAt : Option ℚ
deriving DecidableEq, Repr

/-- The interval-collection loop: one `(created_at, closed_at or now)`
interval per session served by the waiter. -/
def waiterIntervals (sessions : List WSession) (waiterId : Nat) (now : ℚ) :
    List (ℚ × ℚ) :=
  (sessions.filter (fun s => s.waiterId == some waiterId)).map
    (fun s => (s.createdAt, s.closedAt.getD now))

/-- Stable insertion of an interval before the first one with a strictly
later start. -/
def insertByStart (i : ℚ × ℚ) : List (ℚ × ℚ) → List (ℚ × ℚ)
  | [] => [i]
  | j :: rest => if i.1 ≤ j.1 then i :: j :: rest else j :: insertByStart i rest

/-- `intervals.sort(key=lambda x: x[0])`: a stable sort by interval start
(Python's `list.sort` is stable; insertion sort is a stable sort). -/
def sortByStart (intervals : List (ℚ × ℚ)) : List (ℚ × ℚ) :=
  match intervals with
  | [] => []
  | i :: rest => insertByStart i (sortByStart rest)

/-- The merge loop over the sorted tail, carrying the current merged
interval (`merged[-1]` in the Python). -/
def mergeIntervalsGo (cur : ℚ × ℚ) : List (ℚ × ℚ) → List (ℚ × ℚ)
  | [] => [cur]
  | i :: rest =>
    if i.1 ≤ cur.2 then mergeIntervalsGo (cur.1, max cur.2 i.2) rest
    else cur :: mergeIntervalsGo i rest

/-- Merge overlapping intervals of a sorted list. -/
def mergeIntervals : List (ℚ × ℚ) → List (ℚ × ℚ)
  | [] => []
  | i :: rest => mergeIntervalsGo i rest

/-- `_calculate_waiter_hours`: collect, sort, merge, sum, convert to
hours. -/
def calculateWaiterHours (sessions : List WSession) (waiterId : Nat) (now : ℚ) : ℚ :=
  let intervals := waiterIntervals sessions waiterId now
  match intervals with
  | [] => 0
  | _ =>
    let merged := mergeIntervals (sortByStart intervals)
    ((merged.map (fun i => i.2 - i.1)).sum) / 3600

/-- Modelled from the spec: one step of "merge where `next.start <=
current.end`" — extend the last accumulated disjoint interval or append a
new one. -/
def specMergeStep (merged : List (ℚ × ℚ)) (i : ℚ × ℚ) : List (ℚ × ℚ) :=
  match merged.getLast? with
  | none => [i]
  | some cur =>
    if i.1 ≤ cur.2 then merged.dropLast ++ [(cur.1, max cur.2 i.2)]
    else merged ++ [i]

/-- Modelled from the spec: "sort intervals by start, merge where
`next.start <= current.end`, sum resulting disjoint interval durations".
The merge is phrased as a left fold over the sorted intervals. -/
def specMergeFold (intervals : List (ℚ × ℚ)) : List (ℚ × ℚ) :=
  (sortByStart intervals).foldl specMergeStep []

/-- Modelled from the spec: total duration of the merged disjoint
intervals, in hours. -/
def specMergedHours (intervals : List (ℚ × ℚ)) : ℚ :=
  (((specMergeFold intervals).map (fun i => i.2 - i.1)).sum) / 3600

/-!
## Derived observations and concrete states used by the theorems
-/

/-- The signed sum of the amounts of the chip operations recorded for a
seat (the spec's invariant reading of the log). -/
def opsSum (ops : List ChipOp) (sn : Nat) : Int :=
  ((ops.filter (fun op => op.seatNo == sn)).map (fun op => op.amount)).sum

/-- The seat-total invariant: every seat row carries the signed sum of
its not-undone chip operations. -/
def SeatsInv (seats : List Seat) (ops : List ChipOp) : Prop :=
  ∀ s ∈ seats, s.total = opsSum ops s.seatNo

/-- Observed total of a seat. -/
def seatTotalOf (st : SessionState) (sn : Nat) : Option Int :=
  (findSeat st.seats sn).map (fun s => s.total)

/-- The chip operations a call appended (relative to the pre-state). -/
def newOpsAfter (st : SessionState) (r : Except ChipErr SessionState) :
    Option (List ChipOp) :=
  r.toOption.map (fun st' => st'.ops.drop st.ops.length)

/-- The purchases a call appended (relative to the pre-state). -/
def newPurchasesAfter (st : SessionState) (r : Except ChipErr SessionState) :
    Option (List ChipPurchase) :=
  r.toOption.map (fun st' => st'.purchases.drop st.purchases.length)

/-- A seat with total 10 and outstanding credit 10 (one credit buy-in). -/
def st5 : SessionState :=
  applyCmds (initState 1 7 0 0) [.add 1 10 .credit 1]

/-- The spec scenario seat: total 100 of which credit 40 (cash buy-in of
60, then credit buy-in of 40). -/
def st5w : SessionState :=
  applyCmds (initState 1 7 0 0) [.add 1 60 .cash 1, .add 1 40 .credit 2]

/-- The spec scenario seat for the payoff split: outstanding credit 50. -/
def st3w : SessionState :=
  applyCmds (initState 1 7 0 0) [.add 1 50 .credit 1]

/-- After a cash buy-in of 5 on the only seat of a fresh session. -/
def stC2a : SessionState :=
  applyCmd (initState 1 7 0 0) (.add 1 5 .cash 1)

/-- After additionally clearing the seat: its purchase is deleted and the
total reset to 0 while the +5 chip operation survives. -/
def stC2b : SessionState :=
  runOr stC2a (clearSeat stC2a 1)

/-- After additionally undoing the seat's last operation: the surviving
+5 operation is removed and the total drops from 0 to -5.  This is the
source's reachable path to a negative seat total (buy-in, clear_seat,
undo_last). -/
def stC2pre : SessionState :=
  runOr stC2b (undoLast stC2b 1)

/-- A closed session with one recorded buy-in on seat 1. -/
def stClosedW : SessionState :=
  closeSession (applyCmds (initState 2 7 0 0) [.add 1 100 .credit 1]) [] 9

/-- Global store with two active dealers (1, 2) and two tables (10, 20). -/
def g0 : GState := ⟨[1, 2], [10, 20], [], [], [], 0, 0⟩

/-- After `create_session(table 10, dealer 1)`. -/
def g1 : GState := gRun g0 (fun st => createSession st 10 1 4 0)

/-- After additionally `add_dealer(session 0, dealer 2)`: dealer 2 now
holds an active co-dealer assignment on open session 0 while
`sessions.dealer_id` still names dealer 1. -/
def g2 : GState := gRun g1 (fun st => addDealer st 0 2 5)

/-- After additionally `create_session(table 20, dealer 2)`. -/
def g3 : GState := gRun g2 (fun st => createSession st 20 2 4 6)

/-- One unlinked loss of 500 at time 7. -/
def opsC7 : List ChipOp := [⟨1, 1, -500, 7⟩]

/-- Assignment of dealer 101 over [0, 10), ended. -/
def aA : DealerAssignment := ⟨1, 101, 0, some 10, none⟩

/-- Concurrent assignment of dealer 102 over [5, 10), ended. -/
def aB : DealerAssignment := ⟨2, 102, 5, some 10, none⟩

/-- One unlinked loss of 500 exactly at the 10:00 boundary (minutes as
units: 540 = 09:00, 600 = 10:00, 720 = 12:00). -/
def opsB : List ChipOp := [⟨1, 1, -500, 600⟩]

/-- The boundary scenario assignments: dealer A 09:00-10:00 (ended when
replaced), dealer B 10:00-12:00 (ended at session close). -/
def aBoundaryA : DealerAssignment := ⟨1, 101, 540, some 600, none⟩

/-- Dealer B's boundary-scenario assignment. -/
def aBoundaryB : DealerAssignment := ⟨2, 102, 600, some 720, none⟩

/-- The waiter-hours scenario: waiter 7 serves 09:00-11:00 and
10:00-12:00 concurrently (timestamps in seconds). -/
def wsessions : List WSession :=
  [⟨some 7, 32400, some 39600⟩, ⟨some 7, 36000, some 43200⟩]

/-!
## Helper lemmas
-/

theorem opsSum_nil (sn : Nat) : opsSum [] sn = 0 := rfl

theorem opsSum_append (l l2 : List ChipOp) (sn : Nat) :
    opsSum (l ++ l2) sn = opsSum l sn + opsSum l2 sn := by
  simp [opsSum, List.filter_append]

theorem opsSum_cons (op : ChipOp) (l : List ChipOp) (sn : Nat) :
    opsSum (op :: l) sn = (if op.seatNo == sn then op.amount else 0) + opsSum l sn := by
  simp only [opsSum, List.filter_cons]
  by_cases h : op.seatNo == sn <;> simp [h]

theorem opsSum_perm {l l' : List ChipOp} (h : l.Perm l') (sn : Nat) :
    opsSum l sn = opsSum l' sn :=
  ((h.filter _).map _).sum_eq

/-- The seat fetched by `findSeat` satisfies the invariant and carries the
requested seat number. -/
theorem findSeat_spec {seats : List Seat} {ops : List ChipOp} {sn : Nat} {seat : Seat}
    (hInv : SeatsInv seats ops) (hfind : findSeat seats sn = some seat) :
    seat.total = opsSum ops sn ∧ seat.seatNo = sn := by
  unfold findSeat at hfind
  have hmem : seat ∈ seats := List.mem_of_find?_eq_some hfind
  have hp := List.find?_some hfind
  have hsn : seat.seatNo = sn := by simpa using hp
  exact ⟨hsn ▸ hInv seat hmem, hsn⟩

/-- Updating the fetched seat's total preserves the invariant whenever the
new total matches the new log for that seat number and other seat numbers
keep their sums. -/
theorem seatsInv_update {seats : List Seat} {ops : List ChipOp} (ops' : List ChipOp)
    (sn : Nat) (newTotal : Int)
    (hInv : SeatsInv seats ops)
    (hsn : newTotal = opsSum ops' sn)
    (hother : ∀ s', ¬s' = sn → opsSum ops' s' = opsSum ops s') :
    SeatsInv (updateSeatTotal seats sn newTotal) ops' := by
  intro s hs
  rcases List.mem_map.mp hs with ⟨t, ht, rfl⟩
  by_cases h : t.seatNo == sn
  · have hteq : t.seatNo = sn := by simpa using h
    simp only [h, if_pos]
    simpa [hteq] using hsn
  · have hne : ¬t.seatNo = sn := by simpa using h
    simp only [h, if_neg, Bool.false_eq_true, not_false_iff]
    rw [hother t.seatNo hne]
    exact hInv t ht

theorem updateChipsInPlay_seats (st : SessionState) (d : Int) :
    (updateChipsInPlay st d).seats = st.seats := by
  simp only [updateChipsInPlay]
  split
  · split <;> rfl
  · rfl

theorem updateChipsInPlay_ops (st : SessionState) (d : Int) :
    (updateChipsInPlay st d).ops = st.ops := by
  simp only [updateChipsInPlay]
  split
  · split <;> rfl
  · rfl

theorem updateChipsInPlay_purchases (st : SessionState) (d : Int) :
    (updateChipsInPlay st d).purchases = st.purchases := by
  simp only [updateChipsInPlay]
  split
  · split <;> rfl
  · rfl

theorem updateChipsInPlay_status (st : SessionState) (d : Int) :
    (updateChipsInPlay st d).status = st.status := by
  simp only [updateChipsInPlay]
  split
  · split <;> rfl
  · rfl

/-- Any successful `addChips` call preserves the seat-total invariant. -/
theorem addChips_ok_inv {st st' : SessionState} {sn : Nat} {amount : Int}
    {pt : PaymentType} {now : Nat}
    (h : addChips st sn amount pt now = .ok st')
    (hInv : SeatsInv st.seats st.ops) : SeatsInv st'.seats st'.ops := by
  unfold addChips at h
  cases hfind : findSeat st.seats sn with
  | none => rw [hfind] at h; exact absurd h (by simp)
  | some seat =>
  rw [hfind] at h
  obtain ⟨htot, hsn⟩ := findSeat_spec hInv hfind
  simp only at h
  split at h
  case isTrue hpos =>
    split at h
    case isTrue hcred =>
      -- payoff-before-purchase split
      cases h
      rw [updateChipsInPlay_seats, updateChipsInPlay_ops]
      set c := seatCredit st.purchases sn with hc
      by_cases h1 : min amount c > 0 <;> by_cases h2 : amount - min amount c > 0 <;>
        simp only [h1, h2, if_pos, if_neg, not_true, not_false_iff] <;>
        refine seatsInv_update _ sn _ hInv ?_ (fun s' hs' => ?_) <;>
        simp_all [opsSum_append, opsSum_cons, opsSum_nil] <;> omega
    case isFalse hcred =>
      cases h
      rw [updateChipsInPlay_seats, updateChipsInPlay_ops]
      refine seatsInv_update _ sn _ hInv ?_ (fun s' hs' => ?_) <;>
        simp_all [addChipsNormal, opsSum_append, opsSum_cons, opsSum_nil] <;> omega
  case isFalse hpos =>
    split at h
    case isTrue => exact absurd h (by simp)
    case isFalse =>
      cases h
      rw [updateChipsInPlay_seats, updateChipsInPlay_ops]
      refine seatsInv_update _ sn _ hInv ?_ (fun s' hs' => ?_) <;>
        simp_all [addChipsNormal, opsSum_append, opsSum_cons, opsSum_nil] <;> omega

/-- The row returned by `lastOp` is a logged operation of that seat. -/
theorem lastOp_mem {ops : List ChipOp} {sn : Nat} {last : ChipOp}
    (h : lastOp ops sn = some last) : last ∈ ops ∧ last.seatNo = sn := by
  unfold lastOp at h
  have hmem := List.mem_of_getLast?_eq_some h
  have hfil := List.mem_filter.mp hmem
  exact ⟨hfil.1, by simpa using hfil.2⟩

/-- Any successful `undoLast` call preserves the seat-total invariant. -/
theorem undoLast_ok_inv {st st' : SessionState} {sn : Nat}
    (h : undoLast st sn = .ok st')
    (hInv : SeatsInv st.seats st.ops) : SeatsInv st'.seats st'.ops := by
  unfold undoLast at h
  cases hfind : findSeat st.seats sn with
  | none => rw [hfind] at h; exact absurd h (by simp)
  | some seat =>
  rw [hfind] at h
  cases hlast : lastOp st.ops sn with
  | none => rw [hlast] at h; exact absurd h (by simp)
  | some last =>
  rw [hlast] at h
  cases h
  obtain ⟨htot, hsn⟩ := findSeat_spec hInv hfind
  obtain ⟨hmem, hlsn⟩ := lastOp_mem hlast
  have hperm : st.ops.Perm (last :: st.ops.erase last) := List.perm_cons_erase hmem
  dsimp only
  refine seatsInv_update _ sn _ hInv ?_ (fun s' hs' => ?_)
  · have hps := opsSum_perm hperm sn
    rw [opsSum_cons] at hps
    simp only [hlsn] at hps
    simp only [beq_self_eq_true, if_pos] at hps
    omega
  · have hps := opsSum_perm hperm s'
    rw [opsSum_cons] at hps
    have hne : (last.seatNo == s') = false := by
      simp [hlsn]
      omega
    rw [hne] at hps
    simpa using hps.symm

/-- One chip-interface command preserves the seat-total invariant. -/
theorem applyCmd_inv (st : SessionState) (c : Cmd)
    (hInv : SeatsInv st.seats st.ops) :
    SeatsInv (applyCmd st c).seats (applyCmd st c).ops := by
  cases c with
  | add sn amount pt now =>
    cases h : addChips st sn amount pt now with
    | ok st' =>
      have hres := addChips_ok_inv h hInv
      simp only [applyCmd, h]
      exact hres
    | error e =>
      simp only [applyCmd, h]
      exact hInv
  | undo sn =>
    cases h : undoLast st sn with
    | ok st' =>
      have hres := undoLast_ok_inv h hInv
      simp only [applyCmd, h]
      exact hres
    | error e =>
      simp only [applyCmd, h]
      exact hInv

/-- Any command sequence preserves the seat-total invariant. -/
theorem applyCmds_inv (cmds : List Cmd) (st : SessionState)
    (hInv : SeatsInv st.seats st.ops) :
    SeatsInv (applyCmds st cmds).seats (applyCmds st cmds).ops := by
  induction cmds generalizing st with
  | nil => exact hInv
  | cons c rest ih => exact ih (applyCmd st c) (applyCmd_inv st c hInv)

/-- A freshly created session satisfies the seat-total invariant. -/
theorem initState_inv (n dealerId : Nat) (cip : Int) (t0 : Nat) :
    SeatsInv (initState n dealerId cip t0).seats (initState n dealerId cip t0).ops := by
  intro s hs
  rcases List.mem_map.mp hs with ⟨i, _, rfl⟩
  simp [opsSum, initState]

/-- Looking a seat up after updating its total returns the updated row. -/
theorem findSeat_updateSeatTotal (seats : List Seat) (sn : Nat) (t : Int) :
    findSeat (updateSeatTotal seats sn t) sn =
      (findSeat seats sn).map (fun s => { s with total := t }) := by
  induction seats with
  | nil => rfl
  | cons head rest ih =>
    by_cases h : head.seatNo == sn
    · simp [findSeat, updateSeatTotal, List.find?, h]
    · simp only [findSeat, updateSeatTotal, List.map_cons, List.find?] at ih ⊢
      rw [if_neg (by simpa using h)]
      simp only [h]
      exact ih

/-- C1: after any sequence of addChips / undoLastChipOp calls from a
fresh session, every seat's `total` equals the signed sum of the amounts
of the chip operations recorded for that seat that have not been
undone. -/
theorem seat_total_invariant (n dealerId : Nat) (cip : Int) (t0 : Nat)
    (cmds : List Cmd) :
    ∀ seat ∈ (applyCmds (initState n dealerId cip t0) cmds).seats,
      seat.total = opsSum (applyCmds (initState n dealerId cip t0) cmds).ops seat.seatNo :=
  applyCmds_inv cmds _ (initState_inv n dealerId cip t0)

/-- Witness for C1: buy 100 cash, attempt a cash-out of 30 (which dies
with the AttributeError of sessions.py:1004, persisting nothing), then
undo — the undo removes the +100 operation, leaving seat 1 at total 0,
the signed sum of its now-empty log. -/
theorem seat_total_invariant_witness :
    (⟨1, 0⟩ : Seat) ∈ (applyCmds (initState 2 7 0 0)
      [Cmd.add 1 100 PaymentType.cash 1, Cmd.add 1 (-30) PaymentType.cash 2,
       Cmd.undo 1]).seats ∧
    (0 : Int) = opsSum (applyCmds (initState 2 7 0 0)
      [Cmd.add 1 100 PaymentType.cash 1, Cmd.add 1 (-30) PaymentType.cash 2,
       Cmd.undo 1]).ops 1 :=
  ⟨by decide, seat_total_invariant 2 7 0 0
    [Cmd.add 1 100 PaymentType.cash 1, Cmd.add 1 (-30) PaymentType.cash 2,
     Cmd.undo 1] ⟨1, 0⟩ (by decide)⟩

/-- The seat rows produced by the close-session cash-out loop. -/
theorem closeSeatsGo_seats (seats : List Seat) (ops : List ChipOp)
    (purchases : List ChipPurchase) (nextOpId now : Nat) :
    (closeSeatsGo seats ops purchases nextOpId now).1 =
      seats.map (fun s => if s.total > 0 then { s with total := 0 } else s) := by
  induction seats generalizing ops purchases nextOpId with
  | nil => rfl
  | cons seat rest ih =>
    by_cases h : seat.total > 0 <;> simp [closeSeatsGo, h, ih]

/-- C2 counterexample: a session whose only seat carries total -5 —
reached through the source's own path to a negative total: a cash buy-in
of 5, `clear_seat` (which deletes the purchase and zeroes the total but
keeps the +5 chip operation), then `undo_last` (0 - 5 = -5) — is closed,
yet after `closeSession` the seat still has total -5, not 0 as the
claim demands. -/
theorem close_reconciliation_counterexample :
    (closeSession stC2pre [] 9).status = SessionStatus.isClosed ∧
    findSeat (closeSession stC2pre [] 9).seats 1 = some ⟨1, -5⟩ := by decide

/-- C2 (amended): after `closeSession`, every seat with a positive total
has been cashed out to 0 and every other seat keeps its (non-positive)
total — so all totals are ≤ 0 but not necessarily 0 — and every dealer
assignment has `ended_at` set, with the session marked closed. -/
theorem close_session_reconciliation (st : SessionState) (rakes : List (Nat × Int)) (now : Nat) :
    (closeSession st rakes now).seats =
      st.seats.map (fun s => if s.total > 0 then { s with total := 0 } else s) ∧
    (∀ a ∈ (closeSession st rakes now).assignments, a.endedAt ≠ none) ∧
    (closeSession st rakes now).status = SessionStatus.isClosed := by
  refine ⟨?_, ?_, rfl⟩
  · simp [closeSession, finalizeSession, closeSeatsGo_seats]
  · intro a ha
    simp only [closeSession, finalizeSession] at ha
    rcases List.mem_map.mp ha with ⟨b, hb, rfl⟩
    by_cases h : b.endedAt = none
    · have hb' : (b.endedAt == none) = true := by simp [h]
      simp [hb']
    · have hb' : (b.endedAt == none) = false := by simpa using h
      simp [hb', h]

/-- Witness for C2 (amended), at the counterexample session: the seat
rows after closing are exactly the positively-totalled ones zeroed. -/
theorem close_session_reconciliation_witness :
    (closeSession stC2pre [] 9).seats =
      stC2pre.seats.map (fun s => if s.total > 0 then { s with total := 0 } else s) :=
  (close_session_reconciliation stC2pre [] 9).1

/-- C3: a cash buy-in of `a > 0` against outstanding credit `c > 0`
records a zero-amount chip operation with a credit-classified purchase of
`-min(a, c)` linked to it and — when `a - min(a, c) > 0` — a
cash-classified purchase of `a - min(a, c)` with its own chip operation
of that amount; the seat total rises by exactly `a - min(a, c)`. -/
theorem credit_payoff_split (st : SessionState) (sn : Nat) (a : Int) (now : Nat) (seat : Seat)
    (hfind : findSeat st.seats sn = some seat)
    (hc : 0 < seatCredit st.purchases sn) (ha : 0 < a) :
    newOpsAfter st (addChips st sn a PaymentType.cash now) =
      some ([⟨st.nextOpId, sn, 0, now⟩] ++
        (if 0 < a - min a (seatCredit st.purchases sn) then
          [⟨st.nextOpId + 1, sn, a - min a (seatCredit st.purchases sn), now⟩] else [])) ∧
    newPurchasesAfter st (addChips st sn a PaymentType.cash now) =
      some ([⟨sn, -(min a (seatCredit st.purchases sn)), st.nextOpId, PaymentType.credit⟩] ++
        (if 0 < a - min a (seatCredit st.purchases sn) then
          [⟨sn, a - min a (seatCredit st.purchases sn), st.nextOpId + 1, PaymentType.cash⟩]
         else [])) ∧
    (addChips st sn a PaymentType.cash now).toOption.map (fun st' => seatTotalOf st' sn) =
      some (some (seat.total + (a - min a (seatCredit st.purchases sn)))) := by
  have hmin : 0 < min a (seatCredit st.purchases sn) := lt_min ha hc
  by_cases hrem : 0 < a - min a (seatCredit st.purchases sn) <;>
    refine ⟨?_, ?_, ?_⟩ <;>
    simp [newOpsAfter, newPurchasesAfter, seatTotalOf, addChips, Except.toOption,
      hfind, ha, hc, hmin, hrem, List.drop_left,
      updateChipsInPlay_ops, updateChipsInPlay_purchases, updateChipsInPlay_seats,
      findSeat_updateSeatTotal]

/-- Witness for C3: the spec scenario (credit 50, buy 80 cash) produces
the credit payoff of -50, the cash purchase of +30 and a seat total
rising from 50 to 80. -/
theorem credit_payoff_split_witness :
    newPurchasesAfter st3w (addChips st3w 1 80 PaymentType.cash 2) =
      some [⟨1, -50, 1, PaymentType.credit⟩, ⟨1, 30, 2, PaymentType.cash⟩] := by
  have h := credit_payoff_split st3w 1 80 2 ⟨1, 50⟩ (by decide) (by decide) (by decide)
  rw [h.2.1]
  decide

/-- C4 (code bug): every cash-out request (`amount < 0`) on an existing
seat fails with the AttributeError of sessions.py:1004 — `ChipCreateIn`
declares no `credit_to_deduct` field, so `payload.credit_to_deduct`
raises before any validation runs — and the transaction never commits,
so no chip operation, purchase or seat-total change is persisted.  The
claim's InvalidCashoutSplit validation (sessions.py:1007-1028) is dead
code: it can neither reject nor admit any request. -/
theorem cashout_validation_unreachable (st : SessionState) (sn : Nat) (a : Int)
    (pt : PaymentType) (now : Nat) (seat : Seat)
    (hfind : findSeat st.seats sn = some seat) (ha : a < 0) :
    addChips st sn a pt now = .error .attributeError ∧
    applyCmd st (Cmd.add sn a pt now) = st := by
  have hna : ¬a > 0 := by omega
  have h : addChips st sn a pt now = .error .attributeError := by
    simp [addChips, hfind, hna, ha]
  exact ⟨h, by simp [applyCmd, h]⟩

/-- Witness for C4: on the total-10/credit-10 seat, the cash-out of 3
that the claim says must be validated dies with the AttributeError and
leaves the store untouched. -/
theorem cashout_validation_unreachable_witness :
    addChips st5 1 (-3) PaymentType.cash 3 = .error .attributeError ∧
    applyCmd st5 (Cmd.add 1 (-3) PaymentType.cash 3) = st5 :=
  cashout_validation_unreachable st5 1 (-3) PaymentType.cash 3 ⟨1, 10⟩ (by decide) (by decide)

/-- C5 (code bug): the spec's cash-out scenario — seat total 100 of
which credit 40, cash out 100 with `creditToDeduct = 40` — cannot be
performed: `ChipCreateIn` has no `credit_to_deduct` field, the request
dies with the AttributeError of sessions.py:1004, and no chip operation
or purchase is recorded; the split-record logic of
sessions.py:1030-1077 that the claim describes is dead code. -/
theorem cashout_split_records_unreachable :
    seatTotalOf st5w 1 = some 100 ∧ seatCredit st5w.purchases 1 = 40 ∧
    addChips st5w 1 (-100) PaymentType.cash 3 = .error .attributeError ∧
    applyCmd st5w (Cmd.add 1 (-100) PaymentType.cash 3) = st5w :=
  ⟨by decide, by decide, by rfl, by rfl⟩

/-- C10: on a session whose status is closed, `addChips` (here a credit
buy-in of `a > 0` on an existing seat) still succeeds, appends a chip
operation, changes the seat total, and leaves the status closed; and
`undoLast` succeeds exactly when the seat has history — neither handler
inspects the session status. -/
theorem closed_session_chip_interface (st : SessionState) (sn : Nat) (a : Int) (now : Nat)
    (seat : Seat) (hclosed : st.status = SessionStatus.isClosed)
    (hfind : findSeat st.seats sn = some seat) (ha : 0 < a) :
    (addChips st sn a PaymentType.credit now).toOption.map
      (fun st' => (st'.status, seatTotalOf st' sn)) =
      some (SessionStatus.isClosed, some (seat.total + a)) ∧
    newOpsAfter st (addChips st sn a PaymentType.credit now) =
      some [⟨st.nextOpId, sn, a, now⟩] ∧
    (undoLast st sn).isOk = (lastOp st.ops sn).isSome := by
  have hna : ¬a < 0 := by omega
  refine ⟨?_, ?_, ?_⟩
  · simp [addChips, hfind, hna, addChipsNormal, Except.toOption, seatTotalOf,
      updateChipsInPlay_seats, updateChipsInPlay_status, findSeat_updateSeatTotal, hclosed]
  · simp [newOpsAfter, addChips, hfind, hna, addChipsNormal, Except.toOption,
      updateChipsInPlay_ops, List.drop_left]
  · unfold undoLast
    rw [hfind]
    cases h : lastOp st.ops sn <;> simp [Except.isOk, Except.toBool]

/-- Witness for C10: the closed two-seat session accepts a credit buy-in
of 5 on seat 1 (total 0 → 5, status stays closed) and its undo endpoint
reports success for the seat with history. -/
theorem closed_session_chip_interface_witness :
    (addChips stClosedW 1 5 PaymentType.credit 10).toOption.map
      (fun st' => (st'.status, seatTotalOf st' 1)) =
      some (SessionStatus.isClosed, some 5) := by
  have h := closed_session_chip_interface stClosedW 1 5 10 ⟨1, 0⟩ (by decide) (by decide)
    (by decide)
  rw [h.1]
  decide

/-- C6 (code bug): dealer 2 receives an active co-dealer assignment on
open session 0 via `add_dealer`, after which `create_session` for table
20 still accepts dealer 2 — its exclusivity check only inspects
`sessions.dealer_id`, not the assignment table — leaving dealer 2 with
two simultaneously active assignments across open sessions. -/
theorem dealer_exclusivity_violation :
    (addDealer g1 0 2 5).isOk = true ∧
    (createSession g2 20 2 4 6).isOk = true ∧
    countActiveAssignments g3 2 = 2 := by decide

/-- C9: when the table already has an open session, `createSession`
returns that session's id and leaves the store untouched — no new
session, seats or assignments, and no TableHasOpenSession error; the
dealer argument is not even validated. -/
theorem idempotent_create (st : GState) (tid did sc now : Nat) (s : GSession)
    (htab : st.tables.contains tid = true)
    (hopen : st.sessions.find?
      (fun x => x.tableId == tid && x.status == SessionStatus.isOpen) = some s) :
    createSession st tid did sc now = .ok (s.id, st) := by
  unfold createSession
  have htab2 : tid ∈ st.tables := by simpa using htab
  simp [htab2, hopen]

/-- Witness for C9: repeating creation for table 10 on the store `g1`
(which holds open session 0 for that table) returns session 0 and the
store unchanged, even with an unknown dealer id 9. -/
theorem idempotent_create_witness :
    createSession g1 10 9 4 99 = .ok (0, g1) :=
  idempotent_create g1 10 9 4 99 ⟨0, 10, .isOpen, 1⟩ (by decide) (by decide)

/-- C7 counterexample: one unlinked loss of 500 at time 7 under two
concurrent assignments A = [0, 10) and B = [5, 10).  The code counts the
loss in both rakes (500 each), while the claim's latest-`started_at`
rule would attribute it to B alone (A should get 0). -/
theorem rake_attribution_counterexample :
    dealerRakeComputed opsC7 [] 10 aA = 500 ∧
    dealerRakeComputed opsC7 [] 10 aB = 500 ∧
    dealerRakeSpec opsC7 [] [aA, aB] 10 aA = 0 ∧
    dealerRakeSpec opsC7 [] [aA, aB] 10 aB = 500 := by decide

/-- The rake accumulation loop is the sum of `|amount|` over the loss
events inside the assignment's window. -/
theorem dealerRakeComputed_foldl (ops : List ChipOp) (pids : List Nat) (closedAt : Nat)
    (a : DealerAssignment) (acc : Int) :
    ops.foldl (fun acc op =>
      if pids.contains op.id then acc
      else if op.amount < 0 then
        if lossWindow closedAt a op.createdAt then acc + |op.amount| else acc
      else acc) acc =
    acc + ((ops.filter (fun op => !pids.contains op.id && op.amount < 0 &&
        lossWindow closedAt a op.createdAt)).map (fun op => |op.amount|)).sum := by
  induction ops generalizing acc with
  | nil => simp
  | cons op rest ih =>
    simp only [List.foldl_cons]
    rw [ih]
    by_cases hp : op.id ∈ pids <;>
      by_cases hneg : op.amount < 0 <;>
      by_cases hw : lossWindow closedAt a op.createdAt <;>
      simp [List.filter_cons, hp, hneg, hw] <;> ring

/-- C7 (amended): a loss event is counted toward every assignment whose
window contains its timestamp — the half-open `[started_at, ended_at)`
when `ended_at` is set, the closed `[started_at, closed_at]` otherwise —
so concurrent assignments can each be credited with the same loss; an
assignment's computed rake is the sum of `|amount|` over the losses in
its window.  In the boundary scenario (A 09:00-10:00 ended, B
10:00-12:00) the loss at 10:00 is attributed to B only, because A's
ended window excludes its endpoint. -/
theorem rake_attribution (ops : List ChipOp) (pids : List Nat) (closedAt : Nat)
    (a : DealerAssignment) :
    dealerRakeComputed ops pids closedAt a =
      ((ops.filter (fun op => !pids.contains op.id && op.amount < 0 &&
          lossWindow closedAt a op.createdAt)).map (fun op => |op.amount|)).sum ∧
    dealerRakeComputed opsB [] 720 aBoundaryA = 0 ∧
    dealerRakeComputed opsB [] 720 aBoundaryB = 500 := by
  refine ⟨?_, by decide, by decide⟩
  simpa [dealerRakeComputed] using dealerRakeComputed_foldl ops pids closedAt a 0

/-- One spec-merge step on an accumulator with last interval `cur`. -/
theorem specMergeStep_concat (acc : List (ℚ × ℚ)) (cur i : ℚ × ℚ) :
    specMergeStep (acc ++ [cur]) i =
      if i.1 ≤ cur.2 then acc ++ [(cur.1, max cur.2 i.2)] else (acc ++ [cur]) ++ [i] := by
  simp [specMergeStep]

/-- The spec's fold-based merge agrees with the code's recursive merge
loop, relative to any already-merged prefix. -/
theorem specMergeFold_go (rest : List (ℚ × ℚ)) (acc : List (ℚ × ℚ)) (cur : ℚ × ℚ) :
    rest.foldl specMergeStep (acc ++ [cur]) = acc ++ mergeIntervalsGo cur rest := by
  induction rest generalizing acc cur with
  | nil => simp [mergeIntervalsGo]
  | cons i rest ih =>
    simp only [List.foldl_cons, specMergeStep_concat]
    by_cases h : i.1 ≤ cur.2
    · rw [if_pos h, ih, mergeIntervalsGo, if_pos h]
    · rw [if_neg h, ih, mergeIntervalsGo, if_neg h]
      simp

/-- The spec's fold-based merge equals the code's merge on any list. -/
theorem mergeIntervals_eq_fold (l : List (ℚ × ℚ)) :
    l.foldl specMergeStep [] = mergeIntervals l := by
  cases l with
  | nil => rfl
  | cons i rest =>
    have h := specMergeFold_go rest [] i
    simpa [specMergeStep, mergeIntervals] using h

/-- C8: the waiter-hours computation equals the spec's
sort-merge-and-sum of the waiter's session intervals, and the scenario
of serving 09:00-11:00 and 10:00-12:00 concurrently yields 3 hours, not
4. -/
theorem waiter_hours_merging (sessions : List WSession) (wid : Nat) (now : ℚ) :
    calculateWaiterHours sessions wid now =
      specMergedHours (waiterIntervals sessions wid now) ∧
    calculateWaiterHours wsessions 7 0 = 3 := by
  constructor
  · cases h : waiterIntervals sessions wid now with
    | nil => simp [calculateWaiterHours, specMergedHours, specMergeFold, h, sortByStart]
    | cons i rest =>
      simp only [calculateWaiterHours, specMergedHours, specMergeFold, h]
      rw [mergeIntervals_eq_fold]
  · norm_num [calculateWaiterHours, waiterIntervals, wsessions, sortByStart, insertByStart,
      mergeIntervals, mergeIntervalsGo]

end Casic
